import Mathlib

/-
Verification of the nvmbuilder layout schema (src/python/nvmbuilder_schema.py).

The source is a pydantic re-implementation of the Rust serde schema: a
decoded document tree (produced by a JSON/YAML/TOML decoder) is validated
into a strongly typed configuration.  We embed the decoded tree as
`DynValue`, the typed model as Lean structures with the source's names,
and each pydantic validation step as an explicit `Except String` function
translated from the source:

  * `flatten_source`   embeds `LeafEntry._flatten_source` (the before
    validator that folds `name`/`value` into the `source` field);
  * `leafFromFlattened` embeds pydantic's field validation of `LeafEntry`
    with `extra="forbid"` (fields `type` (alias of scalar_type), `size`,
    `source`);
  * `validateSize`     embeds `SizeSource._coerce` followed by root
    validation against `Union[int, Tuple[int, int]]`;
  * `validateValueSource` embeds `ValueSource`'s
    `Union[DataValue, _ValueArray]` (the arms are disjoint: a scalar is
    never a list and vice versa, so a direct shape match is faithful);
  * `validateEntry`    embeds `Entry`'s `Union[LeafEntry, Dict[str, Entry]]`;
    the two arms are disjoint (a successful `LeafEntry` maps `type` to a
    scalar-type string, which is never a valid `Entry`), so trying the
    leaf arm and falling back to the dict arm is faithful to pydantic's
    union resolution;
  * `validateConfig`   embeds `Config._flatten_blocks` followed by field
    validation of `settings` and `blocks`.

Conventions: mappings are association lists in document order (decoded
mappings have unique keys, which theorems assume where it matters);
machine integers are `Int` (Python ints are unbounded); pydantic v2
rejects `bool` where an `int` is expected, which the `Int`-field matches
reflect, while Python's `isinstance(x, int)` accepts booleans, which
`isPyInt` reflects.  Error strings keep the source's wording with the
quote characters dropped.  `model_dump`-style serialization (used by the
`__main__` entry point, `cfg.model_dump_json`) is embedded by the `dump*`
functions at the tree level: pydantic dumps by field name (not alias), so
a `LeafEntry` dumps its scalar type under `scalar_type`, and a `Config`
dumps its blocks nested under a literal `blocks` key.
-/

namespace Nvm

/-- A decoded document node: the dynamic value tree the format-specific
decoder (JSON/YAML/TOML) hands to the validator. -/
inductive DynValue where
  | null : DynValue
  | bool : Bool → DynValue
  | int : Int → DynValue
  | float : Float → DynValue
  | str : String → DynValue
  | seq : List DynValue → DynValue
  | map : List (String × DynValue) → DynValue

/-- Endianness enum from the source (`little` / `big`). -/
inductive Endianness where
  | little : Endianness
  | big : Endianness
deriving DecidableEq

/-- CRC parameters (`CrcData` in the source): three integers and two
reflection flags. -/
structure CrcData where
  polynomial : Int
  start : Int
  xor_out : Int
  ref_in : Bool
  ref_out : Bool
deriving DecidableEq

/-- CrcLocation union (`Union[str, int]` in the source): a symbolic
keyword or a raw address. -/
inductive CrcLocation where
  | keyword : String → CrcLocation
  | address : Int → CrcLocation
deriving DecidableEq

/-- Block header: `start_address`, `length`, `crc_location`, `padding`
(defaulting to 0xFF when absent). -/
structure Header where
  start_address : Int
  length : Int
  crc_location : CrcLocation
  padding : Int
deriving DecidableEq

/-- Scalar type enumeration of a leaf entry. -/
inductive ScalarType where
  | u8 | u16 | u32 | u64 | i8 | i16 | i32 | i64 | f32 | f64
deriving DecidableEq

/-- Size of a leaf: a single dimension or a two-dimension pair
(`RootModel[Union[int, Tuple[int, int]]]` in the source). -/
inductive SizeSource where
  | single : Int → SizeSource
  | pair : Int → Int → SizeSource
deriving DecidableEq

/-- A literal data value: integer, float, or string
(`DataValue = Union[int, float, str]` in the source). -/
inductive DataValue where
  | intV : Int → DataValue
  | floatV : Float → DataValue
  | strV : String → DataValue

/-- A leaf's literal payload: one `DataValue` or a list of them
(`ValueSource = RootModel[Union[DataValue, _ValueArray]]`). -/
inductive ValueSource where
  | single : DataValue → ValueSource
  | array : List DataValue → ValueSource

/-- The normalized source of a leaf: a named reference or a literal
(`EntrySource = Union[_NameSource, _ValueLiteral]`). -/
inductive EntrySource where
  | name : String → EntrySource
  | value : ValueSource → EntrySource

/-- A validated leaf entry: scalar type (document key `type`), optional
size, and the normalized `source`. -/
structure LeafEntry where
  scalar_type : ScalarType
  size : Option SizeSource
  source : EntrySource

/-- The recursive entry tree (`Entry = RootModel[Union[LeafEntry,
Dict[str, Entry]]]`): a leaf or an ordered group of named children. -/
inductive Entry where
  | leaf : LeafEntry → Entry
  | group : List (String × Entry) → Entry

/-- A block: header plus the root of its data tree. -/
structure Block where
  header : Header
  data : Entry

/-- The `settings` section: endianness and CRC parameters. -/
structure Settings where
  endianness : Endianness
  crc : CrcData

/-- The validated configuration: settings plus the ordered block map. -/
structure Config where
  settings : Settings
  blocks : List (String × Block)

/-! ### Association-list helpers

These model Python dict operations on an insertion-ordered mapping with
unique keys (`v.pop(k)` and `v[k] = x`). -/

/-- Removes the entry with key `k` (models `dict.pop(k)`). -/
def removeKey (k : String) (kvs : List (String × DynValue)) :
    List (String × DynValue) :=
  kvs.filter (fun p => p.1 != k)

/-- Sets key `k` to `val`: replaces the value in place when the key is
present, appends otherwise (models `d[k] = val` on a Python dict). -/
def setKey (k : String) (val : DynValue) (kvs : List (String × DynValue)) :
    List (String × DynValue) :=
  if (kvs.lookup k).isSome then
    kvs.map (fun p => if p.1 = k then (k, val) else p)
  else
    kvs ++ [(k, val)]

/-! ### Scalar and union validators -/

/-- Python's `isinstance(x, int)`: true for integers and booleans
(`bool` is a subclass of `int` in Python). -/
def isPyInt : DynValue → Bool
  | .int _ => true
  | .bool _ => true
  | _ => false

/-- Resolution of the `CrcLocation` untagged union `Union[str, int]`:
a string is a keyword, an integer an address, anything else an error
(pydantic rejects booleans for `int`). -/
def validateCrcLocation : DynValue → Except String CrcLocation
  | .str s => .ok (.keyword s)
  | .int n => .ok (.address n)
  | _ => .error "crc_location does not match any variant of Union[str, int]"

/-- Resolution of `ScalarType` from its document token. -/
def validateScalarType : DynValue → Except String ScalarType
  | .str "u8" => .ok .u8
  | .str "u16" => .ok .u16
  | .str "u32" => .ok .u32
  | .str "u64" => .ok .u64
  | .str "i8" => .ok .i8
  | .str "i16" => .ok .i16
  | .str "i32" => .ok .i32
  | .str "i64" => .ok .i64
  | .str "f32" => .ok .f32
  | .str "f64" => .ok .f64
  | _ => .error "type must be one of u8 u16 u32 u64 i8 i16 i32 i64 f32 f64"

/-- `SizeSource` validation: `_coerce` first rejects lists of length
other than two and lists with elements failing `isinstance(_, int)`,
then the root union `Union[int, Tuple[int, int]]` accepts a bare
integer or the coerced pair (rejecting booleans, which pass the
`isinstance` check but not pydantic's `int`). -/
def validateSize : DynValue → Except String SizeSource
  | .int n => .ok (.single n)
  | .seq [a, b] =>
    if isPyInt a && isPyInt b then
      match a, b with
      | .int x, .int y => .ok (.pair x y)
      | _, _ => .error "size pair elements must be integers, not booleans"
    else .error "size list must contain integers"
  | .seq _ => .error "size must be length-2 list when array"
  | _ => .error "size does not match any variant of Union[int, Tuple[int, int]]"

/-- `DataValue` validation: an integer, float, or string scalar. -/
def validateDataValue : DynValue → Except String DataValue
  | .int n => .ok (.intV n)
  | .float f => .ok (.floatV f)
  | .str s => .ok (.strV s)
  | _ => .error "value must be an integer, float, or string"

/-- Element-wise validation of `_ValueArray = RootModel[List[DataValue]]`. -/
def validateDataValueList : List DynValue → Except String (List DataValue)
  | [] => .ok []
  | x :: xs =>
    match validateDataValue x with
    | .error e => .error e
    | .ok d =>
      match validateDataValueList xs with
      | .error e => .error e
      | .ok ds => .ok (d :: ds)

/-- `ValueSource` validation (`Union[DataValue, _ValueArray]`): a
sequence is validated element-wise, anything else must be a scalar. -/
def validateValueSource : DynValue → Except String ValueSource
  | .seq xs =>
    match validateDataValueList xs with
    | .error e => .error e
    | .ok ds => .ok (.array ds)
  | v =>
    match validateDataValue v with
    | .error e => .error e
    | .ok d => .ok (.single d)

/-! ### Leaf entry validation -/

/-- The `_flatten_source` before validator of `LeafEntry`: requires
exactly one of the document keys `name` / `value`, pops it, and stores
it wrapped under the `source` key (a Python dict assignment, which
overwrites any pre-existing `source` entry). -/
def flatten_source (kvs : List (String × DynValue)) :
    Except String (List (String × DynValue)) :=
  match kvs.lookup "name", kvs.lookup "value" with
  | some _, some _ => .error "LeafEntry accepts either name or value, not both"
  | none, none => .error "LeafEntry requires either name or value"
  | some nv, none =>
    .ok (setKey "source" (.map [("name", nv)]) (removeKey "name" kvs))
  | none, some vv =>
    .ok (setKey "source" (.map [("value", vv)]) (removeKey "value" kvs))

/-- Keys the `LeafEntry` model recognizes after `_flatten_source` has
run: the alias `type` of `scalar_type`, plus `size` and `source`
(`extra="forbid"` rejects everything else). -/
def allowedLeafKey (k : String) : Bool :=
  k == "type" || k == "size" || k == "source"

/-- Validation of the optional `size` field: absent or `null` yields no
size, otherwise the size union is resolved. -/
def validateOptSize : Option DynValue → Except String (Option SizeSource)
  | none => .ok none
  | some .null => .ok none
  | some v =>
    match validateSize v with
    | .error e => .error e
    | .ok s => .ok (some s)

/-- `EntrySource` validation (`Union[_NameSource, _ValueLiteral]`): a
mapping whose `name` is a string is a named reference; otherwise its
`value`, when present, is validated as a literal. -/
def validateEntrySource : DynValue → Except String EntrySource
  | .map kvs =>
    match kvs.lookup "name" with
    | some (.str s) => .ok (.name s)
    | _ =>
      match kvs.lookup "value" with
      | some w =>
        match validateValueSource w with
        | .error e => .error e
        | .ok vs => .ok (.value vs)
      | none => .error "source does not match any variant of EntrySource"
  | _ => .error "source must be a mapping"

/-- Pydantic field validation of `LeafEntry` on the flattened document:
`extra="forbid"` rejects unrecognized keys, `type` is required and
resolved to a `ScalarType`, `size` is optional, `source` is required. -/
def leafFromFlattened (kvs : List (String × DynValue)) :
    Except String LeafEntry :=
  match kvs.find? (fun p => !allowedLeafKey p.1) with
  | some p => .error ("Extra inputs are not permitted: " ++ p.1)
  | none =>
    match kvs.lookup "type" with
    | none => .error "Field required: type"
    | some tv =>
      match validateScalarType tv with
      | .error e => .error e
      | .ok st =>
        match validateOptSize (kvs.lookup "size") with
        | .error e => .error e
        | .ok sz =>
          match kvs.lookup "source" with
          | none => .error "Field required: source"
          | some sv =>
            match validateEntrySource sv with
            | .error e => .error e
            | .ok src => .ok ⟨st, sz, src⟩

/-- Full `LeafEntry` validation of a document node: the node must be a
mapping, `_flatten_source` runs first, then field validation. -/
def validateLeafEntry : DynValue → Except String LeafEntry
  | .map kvs =>
    match flatten_source kvs with
    | .error e => .error e
    | .ok kvs2 => leafFromFlattened kvs2
  | _ => .error "LeafEntry input must be a mapping"

/-! ### Recursive entry tree validation -/

mutual

/-- `Entry` union validation: try the `LeafEntry` arm; on failure fall
back to the group arm, a mapping of child entries in document order (the
arms are disjoint, see the header comment).  A non-mapping node fails
both arms (`LeafEntry` and `Dict` each require a mapping), hence the
direct error. -/
def validateEntry (v : DynValue) : Except String Entry :=
  match v with
  | .map kvs =>
    match validateLeafEntry (.map kvs) with
    | .ok l => .ok (.leaf l)
    | .error _ =>
      match validateEntryKVs kvs with
      | .error e => .error e
      | .ok cs => .ok (.group cs)
  | _ => .error "Entry does not match LeafEntry or a mapping of entries"

/-- Validates each child of a group in order. -/
def validateEntryKVs (kvs : List (String × DynValue)) :
    Except String (List (String × Entry)) :=
  match kvs with
  | [] => .ok []
  | (k, v) :: rest =>
    match validateEntry v with
    | .error e => .error e
    | .ok c =>
      match validateEntryKVs rest with
      | .error e => .error e
      | .ok cs => .ok ((k, c) :: cs)

end

/-! ### Header, settings, block and config validation -/

/-- `Header` field validation: three required fields (`start_address`,
`length`, `crc_location`) and `padding` defaulting to `0xFF`; extra keys
are ignored (pydantic's default). -/
def validateHeader : DynValue → Except String Header
  | .map kvs =>
    match kvs.lookup "start_address" with
    | some (.int sa) =>
      match kvs.lookup "length" with
      | some (.int ln) =>
        match kvs.lookup "crc_location" with
        | none => .error "Field required: crc_location"
        | some cv =>
          match validateCrcLocation cv with
          | .error e => .error e
          | .ok loc =>
            match kvs.lookup "padding" with
            | none => .ok ⟨sa, ln, loc, 0xFF⟩
            | some (.int p) => .ok ⟨sa, ln, loc, p⟩
            | some _ => .error "padding must be an integer"
      | some _ => .error "length must be an integer"
      | none => .error "Field required: length"
    | some _ => .error "start_address must be an integer"
    | none => .error "Field required: start_address"
  | _ => .error "Header input must be a mapping"

/-- `CrcData` field validation: three integers and two booleans, all
required. -/
def validateCrcData : DynValue → Except String CrcData
  | .map kvs =>
    match kvs.lookup "polynomial" with
    | some (.int poly) =>
      match kvs.lookup "start" with
      | some (.int st) =>
        match kvs.lookup "xor_out" with
        | some (.int xo) =>
          match kvs.lookup "ref_in" with
          | some (.bool ri) =>
            match kvs.lookup "ref_out" with
            | some (.bool ro) => .ok ⟨poly, st, xo, ri, ro⟩
            | _ => .error "ref_out must be a boolean"
          | _ => .error "ref_in must be a boolean"
        | _ => .error "xor_out must be an integer"
      | _ => .error "start must be an integer"
    | _ => .error "polynomial must be an integer"
  | _ => .error "CrcData input must be a mapping"

/-- `Endianness` enum resolution from its string token. -/
def validateEndianness : DynValue → Except String Endianness
  | .str "little" => .ok .little
  | .str "big" => .ok .big
  | _ => .error "endianness must be little or big"

/-- `Settings` field validation: `endianness` and `crc`, both required. -/
def validateSettings : DynValue → Except String Settings
  | .map kvs =>
    match kvs.lookup "endianness" with
    | none => .error "Field required: endianness"
    | some ev =>
      match validateEndianness ev with
      | .error e => .error e
      | .ok en =>
        match kvs.lookup "crc" with
        | none => .error "Field required: crc"
        | some cv =>
          match validateCrcData cv with
          | .error e => .error e
          | .ok crc => .ok ⟨en, crc⟩
  | _ => .error "Settings input must be a mapping"

/-- `Block` field validation: a required `header` and a required `data`
entry tree. -/
def validateBlock : DynValue → Except String Block
  | .map kvs =>
    match kvs.lookup "header" with
    | none => .error "Field required: header"
    | some hv =>
      match validateHeader hv with
      | .error e => .error e
      | .ok h =>
        match kvs.lookup "data" with
        | none => .error "Field required: data"
        | some dv =>
          match validateEntry dv with
          | .error e => .error e
          | .ok d => .ok ⟨h, d⟩
  | _ => .error "Block input must be a mapping"

/-- Validates the collected block documents in document order. -/
def validateBlocks : List (String × DynValue) →
    Except String (List (String × Block))
  | [] => .ok []
  | (k, v) :: rest =>
    match validateBlock v with
    | .error e => .error e
    | .ok b =>
      match validateBlocks rest with
      | .error e => .error e
      | .ok bs => .ok ((k, b) :: bs)

/-- `Config` validation (`_flatten_blocks` followed by field
validation): the document must be a mapping containing `settings`;
every other top-level key, in document order, is treated as a block
definition. -/
def validateConfig : DynValue → Except String Config
  | .map kvs =>
    match kvs.lookup "settings" with
    | none => .error "Missing required settings at top-level"
    | some sv =>
      match validateSettings sv with
      | .error e => .error e
      | .ok s =>
        match validateBlocks (kvs.filter (fun p => p.1 != "settings")) with
        | .error e => .error e
        | .ok bs => .ok ⟨s, bs⟩
  | _ => .error "Config input must be a mapping"

/-! ### Canonical serialization (`model_dump`)

Pydantic's `model_dump_json` — the canonical textual form printed by the
`__main__` entry point — serializes by field name in declaration order,
with `None` fields included as `null`; the tree it denotes is embedded
here. -/

/-- Dump of a scalar data value. -/
def dumpDataValue : DataValue → DynValue
  | .intV n => .int n
  | .floatV f => .float f
  | .strV s => .str s

/-- Dump of a `ValueSource` root model: a bare scalar or a sequence. -/
def dumpValueSource : ValueSource → DynValue
  | .single d => dumpDataValue d
  | .array ds => .seq (ds.map dumpDataValue)

/-- Dump of an `EntrySource`: `_NameSource` and `_ValueLiteral`
serialize as one-key mappings. -/
def dumpEntrySource : EntrySource → DynValue
  | .name s => .map [("name", .str s)]
  | .value vs => .map [("value", dumpValueSource vs)]

/-- Document token of a scalar type. -/
def scalarTypeStr : ScalarType → String
  | .u8 => "u8" | .u16 => "u16" | .u32 => "u32" | .u64 => "u64"
  | .i8 => "i8" | .i16 => "i16" | .i32 => "i32" | .i64 => "i64"
  | .f32 => "f32" | .f64 => "f64"

/-- Dump of a `SizeSource` root model. -/
def dumpSize : SizeSource → DynValue
  | .single n => .int n
  | .pair a b => .seq [.int a, .int b]

/-- Dump of the optional size field (`None` dumps as `null`). -/
def dumpOptSize : Option SizeSource → DynValue
  | none => .null
  | some s => dumpSize s

/-- Dump of a `LeafEntry`: by field name, so the scalar type appears
under `scalar_type`, not under its alias `type`. -/
def dumpLeaf (l : LeafEntry) : DynValue :=
  .map [("scalar_type", .str (scalarTypeStr l.scalar_type)),
        ("size", dumpOptSize l.size),
        ("source", dumpEntrySource l.source)]

mutual

/-- Dump of an entry tree. -/
def dumpEntry (e : Entry) : DynValue :=
  match e with
  | .leaf l => dumpLeaf l
  | .group kvs => .map (dumpEntryKVs kvs)

/-- Dump of a group's children in order. -/
def dumpEntryKVs (kvs : List (String × Entry)) : List (String × DynValue) :=
  match kvs with
  | [] => []
  | (k, e) :: rest => (k, dumpEntry e) :: dumpEntryKVs rest

end

/-- Dump of a `CrcLocation`. -/
def dumpCrcLocation : CrcLocation → DynValue
  | .keyword s => .str s
  | .address n => .int n

/-- Dump of a `Header`. -/
def dumpHeader (h : Header) : DynValue :=
  .map [("start_address", .int h.start_address),
        ("length", .int h.length),
        ("crc_location", dumpCrcLocation h.crc_location),
        ("padding", .int h.padding)]

/-- Dump of a `Block`. -/
def dumpBlock (b : Block) : DynValue :=
  .map [("header", dumpHeader b.header), ("data", dumpEntry b.data)]

/-- Dump of the `Endianness` enum. -/
def dumpEndianness : Endianness → DynValue
  | .little => .str "little"
  | .big => .str "big"

/-- Dump of `CrcData`. -/
def dumpCrcData (c : CrcData) : DynValue :=
  .map [("polynomial", .int c.polynomial),
        ("start", .int c.start),
        ("xor_out", .int c.xor_out),
        ("ref_in", .bool c.ref_in),
        ("ref_out", .bool c.ref_out)]

/-- Dump of `Settings`. -/
def dumpSettings (s : Settings) : DynValue :=
  .map [("endianness", dumpEndianness s.endianness),
        ("crc", dumpCrcData s.crc)]

/-- Dump of a validated `Config`: `settings` and the block map nested
under the literal field name `blocks`. -/
def dumpConfig (c : Config) : DynValue :=
  .map [("settings", dumpSettings c.settings),
        ("blocks", .map (c.blocks.map (fun p => (p.1, dumpBlock p.2))))]

/-! ### Lemmas about the association-list helpers -/

theorem lookup_cons {β : Type} (k pk : String) (pv : β)
    (rest : List (String × β)) :
    List.lookup k ((pk, pv) :: rest) =
      if k == pk then some pv else List.lookup k rest := by
  cases hbk : k == pk <;> simp [List.lookup, hbk]

theorem lookup_removeKey_ne {k k0 : String} (l : List (String × DynValue))
    (h : k ≠ k0) : (removeKey k0 l).lookup k = l.lookup k := by
  induction l with
  | nil => rfl
  | cons p rest ih =>
    obtain ⟨pk, pv⟩ := p
    rw [removeKey, List.filter_cons]
    by_cases hpk : pk = k0
    · have hk : (k == pk) = false := beq_eq_false_iff_ne.mpr (hpk ▸ h)
      have hne : ((pk, pv).1 != k0) = false := by simp [hpk]
      rw [hne, if_neg (by simp), lookup_cons, if_neg (by simp [hk])]
      exact ih
    · have hne : ((pk, pv).1 != k0) = true := by simp [hpk]
      rw [hne, if_pos rfl, lookup_cons, lookup_cons]
      by_cases hbk : (k == pk) = true
      · rw [if_pos hbk, if_pos hbk]
      · rw [if_neg hbk, if_neg hbk]
        exact ih

theorem lookup_append_of_none {k : String} (l l2 : List (String × DynValue))
    (h : l.lookup k = none) : (l ++ l2).lookup k = l2.lookup k := by
  induction l with
  | nil => rfl
  | cons p rest ih =>
    obtain ⟨pk, pv⟩ := p
    rw [List.cons_append, lookup_cons]
    rw [lookup_cons] at h
    by_cases hbk : (k == pk) = true
    · rw [if_pos hbk] at h
      exact absurd h (by simp)
    · rw [if_neg hbk] at h
      rw [if_neg hbk]
      exact ih h

theorem lookup_append_single_ne {k k0 : String} (val : DynValue)
    (l : List (String × DynValue)) (h : k ≠ k0) :
    (l ++ [(k0, val)]).lookup k = l.lookup k := by
  induction l with
  | nil =>
    have hk : (k == k0) = false := beq_eq_false_iff_ne.mpr h
    simp [List.lookup, hk]
  | cons p rest ih =>
    obtain ⟨pk, pv⟩ := p
    rw [List.cons_append, lookup_cons, lookup_cons]
    by_cases hbk : (k == pk) = true
    · rw [if_pos hbk, if_pos hbk]
    · rw [if_neg hbk, if_neg hbk]
      exact ih

theorem lookup_mapSet_isSome {k : String} (val : DynValue)
    (l : List (String × DynValue)) (hs : (l.lookup k).isSome = true) :
    (l.map (fun p => if p.1 = k then (k, val) else p)).lookup k = some val := by
  induction l with
  | nil => simp [List.lookup] at hs
  | cons p rest ih =>
    obtain ⟨pk, pv⟩ := p
    rw [List.map_cons]
    by_cases hpk : pk = k
    · have harm : (if (pk, pv).1 = k then (k, val) else (pk, pv)) = (k, val) := by
        simp [hpk]
      rw [harm, lookup_cons, if_pos (by simp)]
    · have harm : (if (pk, pv).1 = k then (k, val) else (pk, pv)) = (pk, pv) := by
        simp [hpk]
      have hk : (k == pk) = false := beq_eq_false_iff_ne.mpr (Ne.symm hpk)
      rw [harm, lookup_cons, if_neg (by simp [hk])]
      rw [lookup_cons, if_neg (by simp [hk])] at hs
      exact ih hs

theorem lookup_mapSet_ne {k k0 : String} (val : DynValue)
    (l : List (String × DynValue)) (h : k ≠ k0) :
    (l.map (fun p => if p.1 = k0 then (k0, val) else p)).lookup k =
      l.lookup k := by
  induction l with
  | nil => rfl
  | cons p rest ih =>
    obtain ⟨pk, pv⟩ := p
    rw [List.map_cons]
    by_cases hpk : pk = k0
    · have harm : (if (pk, pv).1 = k0 then (k0, val) else (pk, pv)) = (k0, val) := by
        simp [hpk]
      have hk : (k == k0) = false := beq_eq_false_iff_ne.mpr h
      have hk2 : (k == pk) = false := beq_eq_false_iff_ne.mpr (hpk ▸ h)
      rw [harm, lookup_cons, if_neg (by simp [hk]), lookup_cons,
        if_neg (by simp [hk2])]
      exact ih
    · have harm : (if (pk, pv).1 = k0 then (k0, val) else (pk, pv)) = (pk, pv) := by
        simp [hpk]
      rw [harm, lookup_cons, lookup_cons]
      by_cases hbk : (k == pk) = true
      · rw [if_pos hbk, if_pos hbk]
      · rw [if_neg hbk, if_neg hbk]
        exact ih

theorem lookup_setKey_self (k : String) (val : DynValue)
    (l : List (String × DynValue)) : (setKey k val l).lookup k = some val := by
  unfold setKey
  by_cases hs : (l.lookup k).isSome = true
  · rw [if_pos hs]
    exact lookup_mapSet_isSome val l hs
  · rw [if_neg hs]
    have hnone : l.lookup k = none := by
      cases h2 : l.lookup k with
      | none => rfl
      | some v => simp [h2] at hs
    rw [lookup_append_of_none _ _ hnone]
    simp [List.lookup]

theorem lookup_setKey_ne {k k0 : String} (val : DynValue)
    (l : List (String × DynValue)) (h : k ≠ k0) :
    (setKey k0 val l).lookup k = l.lookup k := by
  unfold setKey
  by_cases hs : (l.lookup k0).isSome = true
  · rw [if_pos hs]
    exact lookup_mapSet_ne val l h
  · rw [if_neg hs]
    exact lookup_append_single_ne val l h

theorem mem_removeKey {k k0 : String} {w : DynValue}
    {l : List (String × DynValue)} (hm : (k, w) ∈ l) (h : k ≠ k0) :
    (k, w) ∈ removeKey k0 l := by
  unfold removeKey
  exact List.mem_filter.mpr ⟨hm, by simp [h]⟩

theorem mem_setKey_ne {k k0 : String} {w val : DynValue}
    {l : List (String × DynValue)} (hm : (k, w) ∈ l) (h : k ≠ k0) :
    (k, w) ∈ setKey k0 val l := by
  unfold setKey
  by_cases hs : (l.lookup k0).isSome = true
  · rw [if_pos hs]
    have harm : (fun p => if p.1 = k0 then (k0, val) else p) (k, w) = (k, w) := by
      simp [h]
    exact harm ▸ List.mem_map_of_mem _ hm
  · rw [if_neg hs]
    exact List.mem_append_left _ hm

theorem exists_val_of_mem_keys {k : String} {l : List (String × DynValue)}
    (h : k ∈ l.map Prod.fst) : ∃ w, (k, w) ∈ l := by
  obtain ⟨⟨pk, pv⟩, hp, rfl⟩ := List.mem_map.mp h
  exact ⟨pv, hp⟩

theorem lookup_map_snd {α β : Type} (f : α → β) (k : String)
    (l : List (String × α)) :
    (l.map (fun p => (p.1, f p.2))).lookup k = (l.lookup k).map f := by
  induction l with
  | nil => rfl
  | cons p rest ih =>
    obtain ⟨pk, pv⟩ := p
    rw [List.map_cons]
    rw [show ((pk, pv).1, f (pk, pv).2) = (pk, f pv) from rfl]
    rw [lookup_cons, lookup_cons]
    by_cases hbk : (k == pk) = true
    · rw [if_pos hbk, if_pos hbk]
      rfl
    · rw [if_neg hbk, if_neg hbk]
      exact ih

/-! ### Inversion lemmas for leaf validation -/

theorem flatten_source_ok {kvs kvs2 : List (String × DynValue)}
    (h : flatten_source kvs = .ok kvs2) :
    (∃ nv, kvs.lookup "name" = some nv ∧ kvs.lookup "value" = none ∧
      kvs2 = setKey "source" (.map [("name", nv)]) (removeKey "name" kvs)) ∨
    (∃ vv, kvs.lookup "name" = none ∧ kvs.lookup "value" = some vv ∧
      kvs2 = setKey "source" (.map [("value", vv)]) (removeKey "value" kvs)) := by
  unfold flatten_source at h
  split at h
  · simp at h
  · simp at h
  · next nv heqn heqv =>
    simp only [Except.ok.injEq] at h
    exact .inl ⟨nv, heqn, heqv, h.symm⟩
  · next vv heqn heqv =>
    simp only [Except.ok.injEq] at h
    exact .inr ⟨vv, heqn, heqv, h.symm⟩

theorem flatten_source_lookup {kvs kvs2 : List (String × DynValue)}
    {k : String} (h : flatten_source kvs = .ok kvs2)
    (h1 : k ≠ "name") (h2 : k ≠ "value") (h3 : k ≠ "source") :
    kvs2.lookup k = kvs.lookup k := by
  rcases flatten_source_ok h with ⟨nv, _, _, rfl⟩ | ⟨vv, _, _, rfl⟩
  · rw [lookup_setKey_ne _ _ h3, lookup_removeKey_ne _ h1]
  · rw [lookup_setKey_ne _ _ h3, lookup_removeKey_ne _ h2]

theorem leafFromFlattened_ok_inv {kvs : List (String × DynValue)}
    {l : LeafEntry} (h : leafFromFlattened kvs = .ok l) :
    (∀ p ∈ kvs, allowedLeafKey p.1 = true) ∧
    (∃ tv, kvs.lookup "type" = some tv ∧
      validateScalarType tv = .ok l.scalar_type) ∧
    validateOptSize (kvs.lookup "size") = .ok l.size ∧
    (∃ sv, kvs.lookup "source" = some sv ∧
      validateEntrySource sv = .ok l.source) := by
  unfold leafFromFlattened at h
  split at h
  · simp at h
  · next hfind =>
    split at h
    · simp at h
    · next tv heqt =>
      split at h
      · simp at h
      · next st heqst =>
        split at h
        · simp at h
        · next sz heqsz =>
          split at h
          · simp at h
          · next sv heqsv =>
            split at h
            · simp at h
            · next src heqsrc =>
              simp only [Except.ok.injEq] at h
              subst h
              refine ⟨?_, ⟨tv, heqt, heqst⟩, heqsz, ⟨sv, heqsv, heqsrc⟩⟩
              intro p hp
              have := List.find?_eq_none.mp hfind p hp
              simpa using this

theorem validateLeafEntry_ok_inv {v : DynValue} {l : LeafEntry}
    (h : validateLeafEntry v = .ok l) :
    ∃ kvs, v = .map kvs ∧ ∃ kvs2, flatten_source kvs = .ok kvs2 ∧
      leafFromFlattened kvs2 = .ok l := by
  cases v with
  | map kvs =>
    simp only [validateLeafEntry] at h
    split at h
    · simp at h
    · next kvs2 heq => exact ⟨kvs, rfl, kvs2, heq, h⟩
  | null => exact Except.noConfusion h
  | bool b => exact Except.noConfusion h
  | int n => exact Except.noConfusion h
  | float f => exact Except.noConfusion h
  | str s => exact Except.noConfusion h
  | seq xs => exact Except.noConfusion h

theorem validateLeafEntry_ok_type {v : DynValue} {l : LeafEntry}
    (h : validateLeafEntry v = .ok l) :
    ∃ kvs, v = .map kvs ∧ (kvs.lookup "type").isSome = true := by
  obtain ⟨kvs, rfl, kvs2, hf, hl⟩ := validateLeafEntry_ok_inv h
  obtain ⟨_, ⟨tv, htv, _⟩, _, _⟩ := leafFromFlattened_ok_inv hl
  have ht : kvs.lookup "type" = some tv := by
    rw [← flatten_source_lookup hf (by decide) (by decide) (by decide)]
    exact htv
  exact ⟨kvs, rfl, by simp [ht]⟩

theorem validateEntrySource_name_inv {nv : DynValue} {src : EntrySource}
    (h : validateEntrySource (.map [("name", nv)]) = .ok src) :
    ∃ s, nv = .str s ∧ src = .name s := by
  cases nv with
  | str s =>
    have h2 : validateEntrySource (.map [("name", DynValue.str s)]) =
        .ok (.name s) := rfl
    rw [h2] at h
    simp only [Except.ok.injEq] at h
    exact ⟨s, rfl, h.symm⟩
  | null => exact Except.noConfusion h
  | bool b => exact Except.noConfusion h
  | int n => exact Except.noConfusion h
  | float f => exact Except.noConfusion h
  | seq xs => exact Except.noConfusion h
  | map m => exact Except.noConfusion h

theorem validateEntrySource_value_inv {vv : DynValue} {src : EntrySource}
    (h : validateEntrySource (.map [("value", vv)]) = .ok src) :
    ∃ vs, validateValueSource vv = .ok vs ∧ src = .value vs := by
  have h2 : validateEntrySource (.map [("value", vv)]) =
      match validateValueSource vv with
      | .error e => .error e
      | .ok vs => .ok (.value vs) := rfl
  rw [h2] at h
  split at h
  · simp at h
  · next vs heqvs =>
    simp only [Except.ok.injEq] at h
    exact ⟨vs, heqvs, h.symm⟩

theorem validateEntry_ok_leaf_inv {v : DynValue} {l : LeafEntry}
    (h : validateEntry v = .ok (.leaf l)) :
    validateLeafEntry v = .ok l := by
  cases v with
  | map kvs =>
    unfold validateEntry at h
    split at h
    · next l2 heq =>
      simp only [Except.ok.injEq, Entry.leaf.injEq] at h
      rw [heq, h]
    · next e heq =>
      split at h
      · simp at h
      · simp at h
  | null => exact Except.noConfusion h
  | bool b => exact Except.noConfusion h
  | int n => exact Except.noConfusion h
  | float f => exact Except.noConfusion h
  | str s => exact Except.noConfusion h
  | seq xs => exact Except.noConfusion h

/-! ### Lemmas for block collection -/

theorem validateBlocks_all_ok (l : List (String × DynValue))
    (hb : ∀ p ∈ l, ∃ b, validateBlock p.2 = .ok b) :
    ∃ bs, validateBlocks l = .ok bs ∧ bs.map Prod.fst = l.map Prod.fst := by
  induction l with
  | nil => exact ⟨[], rfl, rfl⟩
  | cons p rest ih =>
    obtain ⟨pk, pv⟩ := p
    obtain ⟨b, hbv⟩ := hb (pk, pv) (List.mem_cons_self _ _)
    obtain ⟨bs, hbs, hmap⟩ := ih (fun q hq => hb q (List.mem_cons_of_mem _ hq))
    refine ⟨(pk, b) :: bs, ?_, ?_⟩
    · simp only [validateBlocks, hbv, hbs]
    · simp [hmap]

theorem map_fst_filter_ne (k0 : String) (l : List (String × DynValue)) :
    ((l.filter (fun p => p.1 != k0)).map Prod.fst) =
      (l.map Prod.fst).filter (fun k => k != k0) := by
  induction l with
  | nil => rfl
  | cons p rest ih =>
    obtain ⟨pk, pv⟩ := p
    by_cases hpk : pk = k0
    · simp [List.filter_cons, hpk, ih]
    · simp [List.filter_cons, hpk, ih]

/-! ### Claim theorems -/

/-- C2: for every mapping document whose `settings` entry validates and
whose every other top-level value validates as a block, config
validation succeeds, the settings are those validated, and the `blocks`
mapping lists exactly the top-level keys other than `settings`, in
document order.  The `Nodup` hypothesis records that a decoded mapping
has unique keys (the Python input is a `dict`). -/
theorem c2_top_level_flatten (kvs : List (String × DynValue)) (sv : DynValue)
    (s : Settings)
    (hnd : (kvs.map Prod.fst).Nodup)
    (hs : kvs.lookup "settings" = some sv)
    (hsv : validateSettings sv = .ok s)
    (hb : ∀ p ∈ kvs, p.1 ≠ "settings" → ∃ b, validateBlock p.2 = .ok b) :
    ∃ c, validateConfig (.map kvs) = .ok c ∧ c.settings = s ∧
      c.blocks.map Prod.fst =
        (kvs.map Prod.fst).filter (fun k => k != "settings") := by
  have hb2 : ∀ p ∈ kvs.filter (fun p => p.1 != "settings"),
      ∃ b, validateBlock p.2 = .ok b := by
    intro p hp
    have hmem := List.mem_filter.mp hp
    exact hb p hmem.1 (by simpa using hmem.2)
  obtain ⟨bs, hbs, hmap⟩ := validateBlocks_all_ok _ hb2
  refine ⟨⟨s, bs⟩, ?_, rfl, ?_⟩
  · simp only [validateConfig, hs, hsv, hbs]
  · rw [show Config.blocks ⟨s, bs⟩ = bs from rfl, hmap, map_fst_filter_ne]

/-- Witness for C2: the spec's scenario-A document (settings plus one
block named `fw`) validates, and the block list is exactly `fw`. -/
theorem c2_top_level_flatten_witness :
    ∃ c, validateConfig (.map [("settings", .map [("endianness", .str "little"),
        ("crc", .map [("polynomial", .int 7), ("start", .int 0),
          ("xor_out", .int 0), ("ref_in", .bool false), ("ref_out", .bool false)])]),
      ("fw", .map [("header", .map [("start_address", .int 0),
          ("length", .int 16), ("crc_location", .str "end")]),
        ("data", .map [("version", .map [("type", .str "u32"),
          ("value", .int 1)])])])]) = .ok c ∧
      c.settings = ⟨.little, ⟨7, 0, 0, false, false⟩⟩ ∧
      c.blocks.map Prod.fst =
        ((([("settings", DynValue.map [("endianness", .str "little"),
        ("crc", .map [("polynomial", .int 7), ("start", .int 0),
          ("xor_out", .int 0), ("ref_in", .bool false), ("ref_out", .bool false)])]),
      ("fw", DynValue.map [("header", .map [("start_address", .int 0),
          ("length", .int 16), ("crc_location", .str "end")]),
        ("data", .map [("version", .map [("type", .str "u32"),
          ("value", .int 1)])])])] : List (String × DynValue)).map
            Prod.fst).filter (fun k => k != "settings")) := by
  refine c2_top_level_flatten _ _ ⟨.little, ⟨7, 0, 0, false, false⟩⟩
    (by simp) rfl rfl ?_
  intro p hp hne
  simp only [List.mem_cons, List.not_mem_nil, or_false] at hp
  rcases hp with rfl | rfl
  · exact absurd rfl hne
  · exact ⟨⟨⟨0, 16, .keyword "end", 0xFF⟩,
      .group [("version", .leaf ⟨.u32, none, .value (.single (.intV 1))⟩)]⟩, rfl⟩

/-- C1 (amended): a node validates as a `LeafEntry` only if it is a
mapping carrying a `type` key, and a mapping without a `type` key can
only validate as a group; however (see the counterexample) a mapping
carrying a `type` key whose leaf parse fails can still validate as a
group, because the union tries the leaf arm and falls back to the dict
arm. -/
theorem c1_leaf_group_classification :
    (∀ (v : DynValue) (l : LeafEntry), validateEntry v = .ok (.leaf l) →
      ∃ kvs, v = .map kvs ∧ (kvs.lookup "type").isSome = true) ∧
    (∀ (kvs : List (String × DynValue)) (e : Entry),
      kvs.lookup "type" = none → validateEntry (.map kvs) = .ok e →
      ∃ g, e = .group g) := by
  constructor
  · intro v l h
    exact validateLeafEntry_ok_type (validateEntry_ok_leaf_inv h)
  · intro kvs e ht h
    unfold validateEntry at h
    split at h
    · next l heq =>
      obtain ⟨kvs2, hkm, htype⟩ := validateLeafEntry_ok_type heq
      injection hkm with h2
      rw [← h2, ht] at htype
      simp at htype
    · next e2 heq =>
      split at h
      · simp at h
      · next cs heqcs =>
        simp only [Except.ok.injEq] at h
        exact ⟨cs, h.symm⟩

/-- Witness for C1: a concrete leaf document validates as a leaf and is
a mapping with a `type` key; a concrete group document without a `type`
key validates as a group. -/
theorem c1_leaf_group_classification_witness :
    (∃ kvs, (DynValue.map [("type", DynValue.str "u8"),
        ("value", DynValue.int 1)]) = .map kvs ∧
      (kvs.lookup "type").isSome = true) ∧
    (∃ g, (Entry.group [("x", .leaf ⟨.u8, none, .value (.single (.intV 1))⟩)]) =
      .group g) :=
  ⟨c1_leaf_group_classification.1 _ ⟨.u8, none, .value (.single (.intV 1))⟩ rfl,
   c1_leaf_group_classification.2
     [("x", .map [("type", .str "u8"), ("value", .int 1)])] _ rfl rfl⟩

/-- Counterexample for C1 as stated: this mapping node carries a `type`
key (whose value is itself a mapping of entries, so the leaf parse
fails) and nevertheless validates as a group, contradicting the claim
that no node carrying a `type` key ever validates as a group. -/
theorem c1_type_key_validates_as_group_counterexample :
    ((([("type", DynValue.map [("x", DynValue.map [("type", DynValue.str "u8"),
        ("value", DynValue.int 1)])])] : List (String × DynValue)).lookup
          "type").isSome = true) ∧
    validateEntry (.map [("type", .map [("x", .map [("type", .str "u8"),
        ("value", .int 1)])])]) =
      .ok (.group [("type", .group [("x",
        .leaf ⟨.u8, none, .value (.single (.intV 1))⟩)])]) :=
  ⟨rfl, rfl⟩

/-- C3: for every leaf document, validation fails with the
mutual-exclusion error when both `name` and `value` are present and with
the missing-required-field error when neither is present (for all scalar
types and size shapes, since the `_flatten_source` check runs before any
other field is examined); when exactly one is present and validation
succeeds, the chosen key is normalized into the single internal `source`
representation. -/
theorem c3_name_value_exclusivity (kvs : List (String × DynValue)) :
    ((kvs.lookup "name").isSome = true → (kvs.lookup "value").isSome = true →
      validateLeafEntry (.map kvs) =
        .error "LeafEntry accepts either name or value, not both") ∧
    (kvs.lookup "name" = none → kvs.lookup "value" = none →
      validateLeafEntry (.map kvs) =
        .error "LeafEntry requires either name or value") ∧
    (∀ l, validateLeafEntry (.map kvs) = .ok l →
      (∃ s, kvs.lookup "name" = some (.str s) ∧ kvs.lookup "value" = none ∧
        l.source = .name s) ∨
      (∃ w vs, kvs.lookup "value" = some w ∧ kvs.lookup "name" = none ∧
        validateValueSource w = .ok vs ∧ l.source = .value vs)) := by
  refine ⟨?_, ?_, ?_⟩
  · intro hn hv
    obtain ⟨nv, hnv⟩ := Option.isSome_iff_exists.mp hn
    obtain ⟨vv, hvv⟩ := Option.isSome_iff_exists.mp hv
    simp only [validateLeafEntry, flatten_source, hnv, hvv]
  · intro hn hv
    simp only [validateLeafEntry, flatten_source, hn, hv]
  · intro l h
    simp only [validateLeafEntry] at h
    split at h
    · simp at h
    · next kvs2 hf =>
      obtain ⟨_, _, _, ⟨sv, hsv, hes⟩⟩ := leafFromFlattened_ok_inv h
      rcases flatten_source_ok hf with ⟨nv, hn, hv, rfl⟩ | ⟨vv, hn, hv, rfl⟩
      · rw [lookup_setKey_self] at hsv
        obtain rfl : sv = DynValue.map [("name", nv)] :=
          (Option.some_inj.mp hsv).symm
        obtain ⟨s, rfl, hsrc⟩ := validateEntrySource_name_inv hes
        exact .inl ⟨s, hn, hv, hsrc⟩
      · rw [lookup_setKey_self] at hsv
        obtain rfl : sv = DynValue.map [("value", vv)] :=
          (Option.some_inj.mp hsv).symm
        obtain ⟨vs, hvs, hsrc⟩ := validateEntrySource_value_inv hes
        exact .inr ⟨vv, vs, hv, hn, hvs, hsrc⟩

/-- Witness for C3: a leaf carrying both `name` and `value` fails with
the mutual-exclusion message, one carrying neither fails with the
missing-required message, and a name-only leaf normalizes into a name
source. -/
theorem c3_name_value_exclusivity_witness :
    validateLeafEntry (.map [("type", .str "f32"), ("name", .str "x"),
      ("value", .float 1.0)]) =
      .error "LeafEntry accepts either name or value, not both" ∧
    validateLeafEntry (.map [("type", .str "u8")]) =
      .error "LeafEntry requires either name or value" ∧
    ((∃ s, ([("type", DynValue.str "u16"), ("size", DynValue.seq
        [DynValue.int 2, DynValue.int 3]), ("name", DynValue.str "table")] :
        List (String × DynValue)).lookup "name" = some (.str s) ∧
      ([("type", DynValue.str "u16"), ("size", DynValue.seq
        [DynValue.int 2, DynValue.int 3]), ("name", DynValue.str "table")] :
        List (String × DynValue)).lookup "value" = none ∧
      (LeafEntry.mk .u16 (some (.pair 2 3)) (.name "table")).source = .name s) ∨
     (∃ w vs, ([("type", DynValue.str "u16"), ("size", DynValue.seq
        [DynValue.int 2, DynValue.int 3]), ("name", DynValue.str "table")] :
        List (String × DynValue)).lookup "value" = some w ∧
      ([("type", DynValue.str "u16"), ("size", DynValue.seq
        [DynValue.int 2, DynValue.int 3]), ("name", DynValue.str "table")] :
        List (String × DynValue)).lookup "name" = none ∧
      validateValueSource w = .ok vs ∧
      (LeafEntry.mk .u16 (some (.pair 2 3)) (.name "table")).source =
        .value vs)) :=
  ⟨(c3_name_value_exclusivity _).1 rfl rfl,
   (c3_name_value_exclusivity _).2.1 rfl rfl,
   (c3_name_value_exclusivity _).2.2 ⟨.u16, some (.pair 2 3), .name "table"⟩ rfl⟩

/-- C4 (amended): a key outside `{type, size, name, value}` other than
the internal field name `source` always makes leaf validation fail, and
the reported error is the unrecognized-field error whenever exactly one
of `name` / `value` is present (otherwise the name/value
requirement check fails first); a literal `source` key, however, is
silently overwritten by the normalization step and does not fail (see
the counterexample). -/
theorem c4_closed_leaf_schema (kvs : List (String × DynValue)) (k : String)
    (hk : k ∈ kvs.map Prod.fst)
    (h1 : k ≠ "type") (h2 : k ≠ "size") (h3 : k ≠ "name") (h4 : k ≠ "value")
    (h5 : k ≠ "source") :
    (∀ l, validateLeafEntry (.map kvs) ≠ .ok l) ∧
    ((((kvs.lookup "name").isSome = true ∧ kvs.lookup "value" = none) ∨
      (kvs.lookup "name" = none ∧ (kvs.lookup "value").isSome = true)) →
      ∃ k2, validateLeafEntry (.map kvs) =
        .error ("Extra inputs are not permitted: " ++ k2)) := by
  obtain ⟨w, hw⟩ := exists_val_of_mem_keys hk
  constructor
  · intro l h
    simp only [validateLeafEntry] at h
    split at h
    · simp at h
    · next kvs2 hf =>
      obtain ⟨hall, _, _, _⟩ := leafFromFlattened_ok_inv h
      have hmem2 : (k, w) ∈ kvs2 := by
        rcases flatten_source_ok hf with ⟨nv, _, _, rfl⟩ | ⟨vv, _, _, rfl⟩
        · exact mem_setKey_ne (mem_removeKey hw h3) h5
        · exact mem_setKey_ne (mem_removeKey hw h4) h5
      have h6 := hall (k, w) hmem2
      simp only [allowedLeafKey, Bool.or_eq_true, beq_iff_eq] at h6
      rcases h6 with (hh | hh) | hh
      · exact h1 hh
      · exact h2 hh
      · exact h5 hh
  · intro hone
    have hf : ∃ kvs2, flatten_source kvs = .ok kvs2 ∧ (k, w) ∈ kvs2 := by
      rcases hone with ⟨hn, hv⟩ | ⟨hn, hv⟩
      · obtain ⟨nv, hnv⟩ := Option.isSome_iff_exists.mp hn
        refine ⟨setKey "source" (.map [("name", nv)]) (removeKey "name" kvs),
          ?_, mem_setKey_ne (mem_removeKey hw h3) h5⟩
        simp only [flatten_source, hnv, hv]
      · obtain ⟨vv, hvv⟩ := Option.isSome_iff_exists.mp hv
        refine ⟨setKey "source" (.map [("value", vv)]) (removeKey "value" kvs),
          ?_, mem_setKey_ne (mem_removeKey hw h4) h5⟩
        simp only [flatten_source, hn, hvv]
    obtain ⟨kvs2, hfs, hmem2⟩ := hf
    cases hfind : kvs2.find? (fun p => !allowedLeafKey p.1) with
    | none =>
      exfalso
      have h6 : allowedLeafKey k = true := by
        have h7 := List.find?_eq_none.mp hfind (k, w) hmem2
        simpa using h7
      simp only [allowedLeafKey, Bool.or_eq_true, beq_iff_eq] at h6
      rcases h6 with (hh | hh) | hh
      · exact h1 hh
      · exact h2 hh
      · exact h5 hh
    | some p =>
      exact ⟨p.1, by simp only [validateLeafEntry, hfs, leafFromFlattened, hfind]⟩

/-- Witness for C4 (amended): a leaf carrying the unrecognized key `foo`
never validates, and with a single `value` key present the failure is
the unrecognized-field error naming `foo`. -/
theorem c4_closed_leaf_schema_witness :
    (∀ l, validateLeafEntry (.map [("type", .str "u8"), ("value", .int 1),
      ("foo", .int 0)]) ≠ .ok l) ∧
    (∃ k2, validateLeafEntry (.map [("type", .str "u8"), ("value", .int 1),
      ("foo", .int 0)]) = .error ("Extra inputs are not permitted: " ++ k2)) := by
  have h := c4_closed_leaf_schema
    [("type", .str "u8"), ("value", .int 1), ("foo", .int 0)] "foo"
    (by simp) (by decide) (by decide) (by decide) (by decide) (by decide)
  exact ⟨h.1, h.2 (.inr ⟨rfl, rfl⟩)⟩

/-- Counterexample for C4 as stated: the key `source` lies outside the
recognized set `{type, size, name, value}`, yet this leaf document
carrying it validates successfully — the normalization step overwrites
the `source` entry instead of rejecting it. -/
theorem c4_unrecognized_key_counterexample :
    validateLeafEntry (.map [("type", .str "u8"), ("name", .str "x"),
      ("source", .int 5)]) = .ok ⟨.u8, none, .name "x"⟩ := rfl

/-! ### Size and value union lemmas -/

theorem validateSize_wrong_len {xs : List DynValue} (h : xs.length ≠ 2) :
    ∀ s, validateSize (.seq xs) ≠ .ok s := by
  rcases xs with _ | ⟨a, _ | ⟨b, _ | ⟨c, rest⟩⟩⟩
  · intro s hs
    exact Except.noConfusion hs
  · intro s hs
    exact Except.noConfusion hs
  · exact absurd rfl h
  · intro s hs
    exact Except.noConfusion hs

theorem validateSize_pair_inv {a b : DynValue} {s : SizeSource}
    (h : validateSize (.seq [a, b]) = .ok s) :
    ∃ x y : Int, a = .int x ∧ b = .int y ∧ s = .pair x y := by
  simp only [validateSize] at h
  split at h
  · split at h
    · simp only [Except.ok.injEq] at h
      exact ⟨_, _, rfl, rfl, h.symm⟩
    · simp at h
  · simp at h

theorem validateDataValueList_ok_inv {xs : List DynValue}
    {ds : List DataValue} (h : validateDataValueList xs = .ok ds) :
    ds.length = xs.length ∧ ∀ x ∈ xs, ∃ d, validateDataValue x = .ok d := by
  induction xs generalizing ds with
  | nil =>
    simp only [validateDataValueList, Except.ok.injEq] at h
    subst h
    simp
  | cons x rest ih =>
    simp only [validateDataValueList] at h
    split at h
    · simp at h
    · next d hd =>
      split at h
      · simp at h
      · next ds2 hds2 =>
        simp only [Except.ok.injEq] at h
        subst h
        obtain ⟨hlen, hall⟩ := ih hds2
        refine ⟨by simp [hlen], ?_⟩
        intro y hy
        rcases List.mem_cons.mp hy with rfl | hy2
        · exact ⟨d, hd⟩
        · exact hall y hy2

/-- C6: size resolution accepts a bare integer and a two-element integer
sequence, and rejects every sequence of any other length and every
sequence containing a non-integer element. -/
theorem c6_size_union_resolution :
    (∀ n : Int, validateSize (.int n) = .ok (.single n)) ∧
    (∀ a b : Int, validateSize (.seq [.int a, .int b]) = .ok (.pair a b)) ∧
    (∀ xs : List DynValue, xs.length ≠ 2 →
      ∀ s, validateSize (.seq xs) ≠ .ok s) ∧
    (∀ xs : List DynValue, (∃ x ∈ xs, ∀ m : Int, x ≠ .int m) →
      ∀ s, validateSize (.seq xs) ≠ .ok s) := by
  refine ⟨fun n => rfl, fun a b => rfl, fun xs h => validateSize_wrong_len h, ?_⟩
  intro xs hx s hs
  rcases xs with _ | ⟨a, _ | ⟨b, _ | ⟨c, rest⟩⟩⟩
  · obtain ⟨x, hmem, _⟩ := hx
    exact absurd hmem (List.not_mem_nil x)
  · exact Except.noConfusion hs
  · obtain ⟨x, y, rfl, rfl, rfl⟩ := validateSize_pair_inv hs
    obtain ⟨z, hmem, hni⟩ := hx
    simp only [List.mem_cons, List.not_mem_nil, or_false] at hmem
    rcases hmem with rfl | rfl
    · exact hni x rfl
    · exact hni y rfl
  · exact Except.noConfusion hs

/-- Witness for C6: a bare size of 4 and the pair [2, 3] are accepted;
the singleton [1] and the pair [1, "a"] are rejected. -/
theorem c6_size_union_resolution_witness :
    validateSize (.int 4) = .ok (.single 4) ∧
    validateSize (.seq [.int 2, .int 3]) = .ok (.pair 2 3) ∧
    (∀ s, validateSize (.seq [.int 1]) ≠ .ok s) ∧
    (∀ s, validateSize (.seq [.int 1, .str "a"]) ≠ .ok s) :=
  ⟨c6_size_union_resolution.1 4, c6_size_union_resolution.2.1 2 3,
   c6_size_union_resolution.2.2.1 [.int 1] (by decide),
   c6_size_union_resolution.2.2.2 [.int 1, .str "a"]
     ⟨.str "a", by simp, fun m hm => DynValue.noConfusion hm⟩⟩

/-- C7: crc_location resolution accepts every string as the keyword
variant and every integer as the address variant, and rejects booleans,
mappings and sequences with the union-mismatch error. -/
theorem c7_crc_location_union :
    (∀ s, validateCrcLocation (.str s) = .ok (.keyword s)) ∧
    (∀ n, validateCrcLocation (.int n) = .ok (.address n)) ∧
    (∀ b, validateCrcLocation (.bool b) =
      .error "crc_location does not match any variant of Union[str, int]") ∧
    (∀ kvs, validateCrcLocation (.map kvs) =
      .error "crc_location does not match any variant of Union[str, int]") ∧
    (∀ xs, validateCrcLocation (.seq xs) =
      .error "crc_location does not match any variant of Union[str, int]") :=
  ⟨fun _ => rfl, fun _ => rfl, fun _ => rfl, fun _ => rfl, fun _ => rfl⟩

/-- C8: the code accepts 2^32 — an integer outside the unsigned 32-bit
range that the source comment documents for the address variant — as a
crc_location address; the claimed range restriction is not enforced. -/
theorem c8_address_not_range_checked :
    validateCrcLocation (.int 4294967296) = .ok (.address 4294967296) ∧
    ¬((4294967296 : Int) < 2 ^ 32) :=
  ⟨rfl, by norm_num⟩

/-- C9 (amended): a value-sourced literal resolves to a single scalar
for integer, float and string payloads, every accepted sequence consists
element-wise of such scalars, and the empty sequence is accepted (as an
empty array) — the non-emptiness stated by the claim is not enforced. -/
theorem c9_value_union_resolution :
    (∀ n : Int, validateValueSource (.int n) = .ok (.single (.intV n))) ∧
    (∀ f : Float, validateValueSource (.float f) = .ok (.single (.floatV f))) ∧
    (∀ s : String, validateValueSource (.str s) = .ok (.single (.strV s))) ∧
    (∀ (xs : List DynValue) (r : ValueSource),
      validateValueSource (.seq xs) = .ok r →
      ∃ ds, r = .array ds ∧ ds.length = xs.length ∧
        ∀ x ∈ xs, ∃ d, validateDataValue x = .ok d) ∧
    validateValueSource (.seq []) = .ok (.array []) := by
  refine ⟨fun n => rfl, fun f => rfl, fun s => rfl, ?_, rfl⟩
  intro xs r h
  simp only [validateValueSource] at h
  split at h
  · simp at h
  · next ds hds =>
    simp only [Except.ok.injEq] at h
    obtain ⟨hlen, hall⟩ := validateDataValueList_ok_inv hds
    exact ⟨ds, h.symm, hlen, hall⟩

/-- Witness for C9 (amended): the two-element sequence of an integer and
a string is accepted and consists of valid scalars. -/
theorem c9_value_union_resolution_witness :
    ∃ ds, (ValueSource.array [.intV 1, .strV "a"]) = .array ds ∧
      ds.length = ([DynValue.int 1, DynValue.str "a"]).length ∧
      ∀ x ∈ [DynValue.int 1, DynValue.str "a"],
        ∃ d, validateDataValue x = .ok d :=
  c9_value_union_resolution.2.2.2.1 [.int 1, .str "a"]
    (.array [.intV 1, .strV "a"]) rfl

/-- C9 counterexample: the empty sequence validates as a literal (an
empty value array), so a value-sourced literal sequence need not be
non-empty as the claim states. -/
theorem c9_empty_sequence_accepted_counterexample :
    validateValueSource (.seq []) = .ok (.array []) := rfl

/-! ### C10: empty groups -/

/-- A document tree of nested singleton mappings with an empty innermost
mapping. -/
def nestEmpty : Nat → DynValue
  | 0 => .map []
  | n + 1 => .map [("g", nestEmpty n)]

/-- The validated entry tree corresponding to `nestEmpty`. -/
def nestGroup : Nat → Entry
  | 0 => .group []
  | n + 1 => .group [("g", nestGroup n)]

/-- C10: an empty mapping validates as a group with zero children, at
every nesting depth, including as the entire data tree of a block. -/
theorem c10_empty_groups_accepted (n : Nat) :
    validateEntry (nestEmpty n) = .ok (nestGroup n) ∧
    validateBlock (.map [("header", .map [("start_address", .int 0),
        ("length", .int 16), ("crc_location", .str "end")]),
      ("data", nestEmpty n)]) =
      .ok ⟨⟨0, 16, .keyword "end", 0xFF⟩, nestGroup n⟩ := by
  have hmain : ∀ m, validateEntry (nestEmpty m) = .ok (nestGroup m) := by
    intro m
    induction m with
    | zero => rfl
    | succ p ih =>
      have h1 : validateLeafEntry (.map [("g", nestEmpty p)]) =
          .error "LeafEntry requires either name or value" := rfl
      show validateEntry (.map [("g", nestEmpty p)]) =
        .ok (.group [("g", nestGroup p)])
      unfold validateEntry
      simp only [h1, validateEntryKVs, ih]
  refine ⟨hmain n, ?_⟩
  have hh : validateHeader (.map [("start_address", .int 0),
      ("length", .int 16), ("crc_location", .str "end")]) =
      .ok ⟨0, 16, .keyword "end", 0xFF⟩ := rfl
  simp [validateBlock, List.lookup, hh, hmain n]

/-! ### C5: serialize-then-revalidate round trip -/

/-- C5 counterexample: a concrete document with zero blocks validates,
but re-validating its canonical serialization fails — the dump nests the
(empty) block map under a literal `blocks` key, which the top-level
flattener treats as a block definition lacking a `header`. -/
theorem c5_roundtrip_counterexample :
    validateConfig (.map [("settings", .map [("endianness", .str "little"),
      ("crc", .map [("polynomial", .int 7), ("start", .int 0),
        ("xor_out", .int 0), ("ref_in", .bool false),
        ("ref_out", .bool false)])])]) =
      .ok ⟨⟨.little, ⟨7, 0, 0, false, false⟩⟩, []⟩ ∧
    validateConfig (dumpConfig ⟨⟨.little, ⟨7, 0, 0, false, false⟩⟩, []⟩) =
      .error "Field required: header" :=
  ⟨rfl, rfl⟩

/-- C5 (amended): re-validating the canonical serialization of a
validated config always fails (for every config value, not only
validated ones): the serialization nests the blocks under a synthetic
`blocks` key, which the flattener reinterprets as a block document, and
no block dump carries the header fields where the block validator looks
for them.  The round trip is therefore never a fixed point. -/
theorem c5_reserialization_never_revalidates (c : Config) :
    ∃ e, validateConfig (dumpConfig c) = .error e := by
  have hblock : ∃ e2, validateBlock
      (.map (c.blocks.map (fun p => (p.1, dumpBlock p.2)))) = .error e2 := by
    have hlb := lookup_map_snd dumpBlock "header" c.blocks
    cases hcb : c.blocks.lookup "header" with
    | none =>
      have hnone : (c.blocks.map (fun p => (p.1, dumpBlock p.2))).lookup
          "header" = none := by rw [hlb, hcb]; rfl
      exact ⟨"Field required: header", by simp only [validateBlock, hnone]⟩
    | some b =>
      have hsome : (c.blocks.map (fun p => (p.1, dumpBlock p.2))).lookup
          "header" = some (dumpBlock b) := by rw [hlb, hcb]; rfl
      have hhdr : validateHeader (dumpBlock b) =
          .error "Field required: start_address" := rfl
      exact ⟨"Field required: start_address",
        by simp only [validateBlock, hsome, hhdr]⟩
  obtain ⟨e2, he2⟩ := hblock
  cases hset : validateSettings (dumpSettings c.settings) with
  | error es =>
    exact ⟨es, by simp [validateConfig, dumpConfig, List.lookup, hset]⟩
  | ok s =>
    exact ⟨e2, by simp [validateConfig, dumpConfig, List.lookup, List.filter,
      hset, validateBlocks, he2]⟩

end Nvm









